import Mathlib

/-!
Verification development for the IDMReactClient repository.

The file embeds the two specced subsystems in Lean:
  * the PKCE authentication client (`CustomAuthService` in
    src/services/customAuthService.ts): PKCE generation, the callback
    handler `signinRedirectCallback`, the token exchange, session
    persistence and the sign-out operations;
  * the batched log shipper (src/services/logger.ts): `flushBatch` of
    the Fluentd handler and `Logger.withAttrs`.

Browser primitives (crypto.getRandomValues, crypto.subtle.digest, fetch,
the DOM storages) are modelled as explicit inputs: random bytes and the
SHA-256 digest are parameters, network calls are parametrised by an
outcome value, and sessionStorage / localStorage are fields of an
explicit state record threaded through the operations.
-/

namespace IDMClient

/-- Truthiness of a JavaScript string-or-null value (URLSearchParams.get and
Storage.getItem return string | null; `if (x)` is false for null and ""). -/
def jsTruthy (o : Option String) : Bool := o.getD "" ≠ ""

/-- The token-response / stored-user shape (interface AuthUser in
customAuthService.ts). `access_token` is modelled as `Option String` because
the value comes from parsed JSON and the code explicitly compares it
against null. -/
structure AuthUser where
  id : String
  email : String
  access_token : Option String
  token_type : String
  expires_in : Int
  scope : String
deriving DecidableEq, Repr

/-- The mutable state of the authentication client: the in-memory
`this.user` field, the durable localStorage entry `auth_user`, and the
short-lived sessionStorage entries `pkce_code_verifier` and `pkce_state`. -/
structure AuthState where
  user : Option AuthUser
  lsAuthUser : Option AuthUser
  ssVerifier : Option String
  ssState : Option String
deriving DecidableEq, Repr

/-- Empty initial state: fresh browser context, nothing stored. -/
def authInit : AuthState := ⟨none, none, none, none⟩

/-- Query parameters of the callback URL, as returned by
URLSearchParams.get (null when absent). -/
structure CallbackParams where
  code : Option String
  state : Option String
  error : Option String
deriving DecidableEq, Repr

/-- The errors thrown by `signinRedirectCallback` and
`exchangeCodeForToken`, one constructor per distinct throw site. -/
inductive AuthError where
  | authorizationError (e : String)
  | missingCode
  | invalidState
  | missingVerifier
  | tokenExchangeFailed (e : String)
deriving DecidableEq, Repr

/-- Outcome of the fetch to the token endpoint: a success JSON body
(parsed as AuthUser), or a non-ok HTTP response whose JSON body may carry
an `error` field. -/
inductive TokenOutcome where
  | success (u : AuthUser)
  | httpError (errField : Option String)
deriving DecidableEq, Repr

/-- Embeds `exchangeCodeForToken` (customAuthService.ts lines 257-290): on a
non-ok response it throws `errorData.error || 'Token exchange failed'`,
otherwise it returns the parsed JSON. -/
def exchangeCodeForToken (outcome : TokenOutcome) : Except AuthError AuthUser :=
  match outcome with
  | .success u => .ok u
  | .httpError ef =>
      .error (.tokenExchangeFailed (if jsTruthy ef then ef.getD "" else "Token exchange failed"))

instance {ε α : Type} [DecidableEq ε] [DecidableEq α] : DecidableEq (Except ε α) := fun a b =>
  match a, b with
  | .ok x, .ok y =>
      if h : x = y then .isTrue (by rw [h]) else .isFalse (fun hh => h (Except.ok.inj hh))
  | .error x, .error y =>
      if h : x = y then .isTrue (by rw [h]) else .isFalse (fun hh => h (Except.error.inj hh))
  | .ok _, .error _ => .isFalse (fun hh => Except.noConfusion hh)
  | .error _, .ok _ => .isFalse (fun hh => Except.noConfusion hh)

/-- Result of one `signinRedirectCallback` invocation: the returned value or
thrown error, the authentication state afterwards, and how many requests
were issued to the token endpoint. -/
structure CallbackResult where
  result : Except AuthError AuthUser
  state : AuthState
  tokenCalls : Nat
deriving DecidableEq, Repr

/-- Embeds `signinRedirectCallback` (customAuthService.ts lines 208-255),
keeping the source's check order: `error` truthy first, then missing
`code`, then the strict state comparison against sessionStorage, then the
stored-verifier check; only then is the token endpoint called, and only on
a successful exchange are the user stored (memory and localStorage) and
the sessionStorage entries removed. -/
def signinRedirectCallback (s : AuthState) (p : CallbackParams) (outcome : TokenOutcome) :
    CallbackResult :=
  if jsTruthy p.error then
    ⟨.error (.authorizationError (p.error.getD "")), s, 0⟩
  else if ¬ jsTruthy p.code then
    ⟨.error .missingCode, s, 0⟩
  else if p.state ≠ s.ssState then
    ⟨.error .invalidState, s, 0⟩
  else if ¬ jsTruthy s.ssVerifier then
    ⟨.error .missingVerifier, s, 0⟩
  else
    match exchangeCodeForToken outcome with
    | .ok u => ⟨.ok u, ⟨some u, some u, none, none⟩, 1⟩
    | .error e => ⟨.error e, s, 1⟩

/-- Embeds `isAuthenticated` (customAuthService.ts lines 297-300):
`this.user !== null && this.user.access_token !== null`. -/
def isAuthenticated (s : AuthState) : Bool :=
  match s.user with
  | none => false
  | some u => u.access_token.isSome

/-- Embeds the state effect of `signoutRedirect` (lines 307-316): clears the
in-memory user, the localStorage entry and both sessionStorage entries
(then navigates away, which has no further state effect). -/
def signoutRedirect (_ : AuthState) : AuthState := ⟨none, none, none, none⟩

/-- Embeds `removeUser` (lines 318-325): same clearing, no navigation. -/
def removeUser (_ : AuthState) : AuthState := ⟨none, none, none, none⟩

/-- Embeds the storage effect of `signinRedirect` (lines 161-205): when both
sessionStorage values are present (truthy) the stored pair is kept (the
challenge recomputed from the stored verifier is a non-empty base64 string,
hence truthy); otherwise a freshly generated verifier and state are stored.
The fresh values are parameters standing for the crypto-random output. -/
def signinRedirect (s : AuthState) (freshVerifier freshState : String) : AuthState :=
  if jsTruthy s.ssVerifier ∧ jsTruthy s.ssState then s
  else ⟨s.user, s.lsAuthUser, some freshVerifier, some freshState⟩

/-- Whether an `Except` value is a success. -/
def exceptOk {ε α : Type} : Except ε α → Bool
  | .ok _ => true
  | .error _ => false

/-- The state-mutating operations of the authentication client, each
parametrised by the external inputs it consumes (fresh random strings,
callback query parameters, token-endpoint outcome). -/
inductive AuthEvent where
  | signinRedirect (freshVerifier freshState : String)
  | signinCallback (p : CallbackParams) (outcome : TokenOutcome)
  | signoutRedirect
  | removeUser
deriving Repr

/-- Authentication state together with the history flag of the spec's
invariant: `validatedExchange` records whether a code exchange that passed
the state comparison and the stored-verifier check has completed
successfully since the last signoutRedirect / removeUser. -/
structure GhostAuthState where
  st : AuthState
  validatedExchange : Bool
deriving Repr

/-- One operation of the authentication client, with the history flag
updated alongside: a callback that returns successfully (which, by
`signinRedirectCallback`, requires the state comparison and the
stored-verifier check to pass and the exchange to succeed) sets the flag;
signoutRedirect and removeUser reset it. -/
def authStep (g : GhostAuthState) (e : AuthEvent) : GhostAuthState :=
  match e with
  | .signinRedirect v st => ⟨signinRedirect g.st v st, g.validatedExchange⟩
  | .signinCallback p outcome =>
      let r := signinRedirectCallback g.st p outcome
      ⟨r.state, g.validatedExchange || exceptOk r.result⟩
  | .signoutRedirect => ⟨signoutRedirect g.st, false⟩
  | .removeUser => ⟨removeUser g.st, false⟩

/-- Run of the client from the empty state with a cleared history flag. -/
def runAuth (events : List AuthEvent) : GhostAuthState :=
  events.foldl authStep ⟨authInit, false⟩

/-- The Session invariant as a predicate on ghost states: the in-memory
user and the durable auth_user entry exist exactly when a validated code
exchange has completed since the last clear. -/
def SessionInv (g : GhostAuthState) : Prop :=
  g.st.user.isSome = g.validatedExchange ∧ g.st.lsAuthUser.isSome = g.validatedExchange

theorem authStep_preserves_SessionInv (g : GhostAuthState) (e : AuthEvent)
    (h : SessionInv g) : SessionInv (authStep g e) := by
  obtain ⟨h1, h2⟩ := h
  cases e with
  | signinRedirect v st =>
      simp only [authStep, signinRedirect, SessionInv]
      split <;> simp_all
  | signinCallback p outcome =>
      simp only [authStep, signinRedirectCallback, SessionInv]
      split
      · simp_all [exceptOk]
      · split
        · simp_all [exceptOk]
        · split
          · simp_all [exceptOk]
          · split
            · simp_all [exceptOk]
            · cases houtcome : exchangeCodeForToken outcome with
              | ok u => simp_all [exceptOk]
              | error e => simp_all [exceptOk]
  | signoutRedirect => simp [authStep, signoutRedirect, SessionInv]
  | removeUser => simp [authStep, removeUser, SessionInv]

theorem foldl_preserves_SessionInv (events : List AuthEvent) (g : GhostAuthState)
    (h : SessionInv g) : SessionInv (events.foldl authStep g) := by
  induction events generalizing g with
  | nil => exact h
  | cons e es ih => exact ih _ (authStep_preserves_SessionInv g e h)

theorem runAuth_SessionInv (events : List AuthEvent) : SessionInv (runAuth events) :=
  foldl_preserves_SessionInv events ⟨authInit, false⟩ ⟨rfl, rfl⟩

/-- The checks of `signinRedirectCallback` that precede the token exchange;
the exchange request is issued exactly when all of them pass. -/
def callbackChecksPass (s : AuthState) (p : CallbackParams) : Bool :=
  ¬ jsTruthy p.error ∧ jsTruthy p.code ∧ p.state = s.ssState ∧ jsTruthy s.ssVerifier

theorem tokenCalls_eq_checksPass (s : AuthState) (p : CallbackParams) (outcome : TokenOutcome) :
    (signinRedirectCallback s p outcome).tokenCalls = if callbackChecksPass s p then 1 else 0 := by
  simp only [signinRedirectCallback, callbackChecksPass]
  split
  · simp_all
  · split
    · simp_all
    · split
      · simp_all
      · split
        · simp_all
        · cases exchangeCodeForToken outcome <;> simp_all

/-- State of the callback page: the component's `handledRef` guard
(Callback.tsx), the authentication state, the number of token-exchange
requests still awaiting a response, and the total number of
token-exchange requests started. -/
structure CbMachine where
  handled : Bool
  auth : AuthState
  pending : Nat
  exchangeCount : Nat
deriving Repr

/-- Interleaving events on the callback page. `invoke` is one invocation of
the component's `handleCallback`: its whole synchronous prefix — the
guard check, setting `handledRef.current = true`, and the body of
`signinRedirectCallback` up to starting the fetch — runs as one atomic
step, because the JavaScript event loop yields only at the `await` of the
fetch. `settle` delivers the response of one in-flight exchange (the
continuation after the `await`): on success the user is stored and
sessionStorage cleared; on a thrown error the component's catch calls
`clearUser`, which clears everything. -/
inductive CbEvent where
  | invoke (p : CallbackParams)
  | settle (outcome : TokenOutcome)
deriving Repr

/-- One interleaving step on the callback page. -/
def cbStep (m : CbMachine) (e : CbEvent) : CbMachine :=
  match e with
  | .invoke p =>
      if m.handled then m
      else if callbackChecksPass m.auth p then
        ⟨true, m.auth, m.pending + 1, m.exchangeCount + 1⟩
      else
        ⟨true, removeUser m.auth, m.pending, m.exchangeCount⟩
  | .settle outcome =>
      match m.pending with
      | 0 => m
      | n + 1 =>
          match outcome with
          | .success u => ⟨m.handled, ⟨some u, some u, none, none⟩, n, m.exchangeCount⟩
          | .httpError _ => ⟨m.handled, removeUser m.auth, n, m.exchangeCount⟩

/-- The callback page as first mounted: guard unset, no exchange started. -/
def cbInit (s : AuthState) : CbMachine := ⟨false, s, 0, 0⟩

/-- Guard invariant: once `handledRef` is set it stays set, and the number
of exchanges ever started never exceeds one. -/
def CbInv (m : CbMachine) : Prop :=
  m.exchangeCount ≤ 1 ∧ (m.handled = false → m.exchangeCount = 0)

theorem cbStep_preserves_CbInv (m : CbMachine) (e : CbEvent) (h : CbInv m) :
    CbInv (cbStep m e) := by
  obtain ⟨h1, h2⟩ := h
  cases e with
  | invoke p =>
      simp only [cbStep, CbInv]
      split
      · exact ⟨h1, h2⟩
      · split
        · rename_i hguard _
          simp only [Bool.not_eq_true] at hguard
          simp [h2 hguard]
        · simp_all
  | settle outcome =>
      simp only [cbStep, CbInv]
      cases m.pending with
      | zero => exact ⟨h1, h2⟩
      | succ n => cases outcome <;> exact ⟨h1, h2⟩

theorem foldl_preserves_CbInv (events : List CbEvent) (m : CbMachine) (h : CbInv m) :
    CbInv (events.foldl cbStep m) := by
  induction events generalizing m with
  | nil => exact h
  | cons e es ih => exact ih _ (cbStep_preserves_CbInv m e h)

/-- The unreserved character set used by `generateRandomString`
(customAuthService.ts line 132), 66 characters. -/
def pkceCharset : List Char :=
  "ABCDEFGHIJKLMNOPQRSTUVWXYZabcdefghijklmnopqrstuvwxyz0123456789-._~".toList

/-- Embeds `generateRandomString` (lines 130-140): one character per random
byte, selected as `charset[byte % charset.length]`. The crypto-random bytes
are an explicit input list (`Uint8Array` filled by crypto.getRandomValues);
positions beyond the supplied list read 0, matching an uninitialised
typed-array slot. -/
def generateRandomString (length : Nat) (randomValues : List Nat) : List Char :=
  (List.range length).map (fun i => pkceCharset.getD (randomValues.getD i 0 % pkceCharset.length) 'A')

/-- Membership in the unreserved set [A-Za-z0-9-._~] of the spec. -/
def isUnreservedChar (c : Char) : Bool :=
  ('A' ≤ c ∧ c ≤ 'Z') ∨ ('a' ≤ c ∧ c ≤ 'z') ∨ ('0' ≤ c ∧ c ≤ '9') ∨
    c = '-' ∨ c = '.' ∨ c = '_' ∨ c = '~'

theorem pkceCharset_unreserved : ∀ c ∈ pkceCharset, isUnreservedChar c = true := by decide

theorem generateRandomString_mem_charset (length : Nat) (randomValues : List Nat) :
    ∀ c ∈ generateRandomString length randomValues, c ∈ pkceCharset := by
  intro c hc
  simp only [generateRandomString, List.mem_map, List.mem_range] at hc
  obtain ⟨i, _, hi⟩ := hc
  have hlt : randomValues.getD i 0 % pkceCharset.length < pkceCharset.length :=
    Nat.mod_lt _ (by decide)
  rw [← hi, List.getD_eq_getElem _ _ hlt]
  exact List.getElem_mem _

/-- The standard base64 alphabet, as used by `btoa`. -/
def b64StdChars : List Char :=
  "ABCDEFGHIJKLMNOPQRSTUVWXYZabcdefghijklmnopqrstuvwxyz0123456789+/".toList

/-- The base64url alphabet of RFC 4648 section 5. -/
def b64UrlChars : List Char :=
  "ABCDEFGHIJKLMNOPQRSTUVWXYZabcdefghijklmnopqrstuvwxyz0123456789-_".toList

/-- Character of the standard base64 alphabet at a sextet index. -/
def stdChar (n : Nat) : Char := b64StdChars.getD n 'A'

/-- Character of the base64url alphabet at a sextet index. -/
def urlChar (n : Nat) : Char := b64UrlChars.getD n 'A'

/-- Standard base64 of a byte sequence with `=` padding, as produced by
`btoa` over the binary string of the digest bytes. -/
def b64encode : List Nat → List Char
  | [] => []
  | [b1] => [stdChar (b1 / 4), stdChar (b1 % 4 * 16), '=', '=']
  | [b1, b2] => [stdChar (b1 / 4), stdChar (b1 % 4 * 16 + b2 / 16), stdChar (b2 % 16 * 4), '=']
  | b1 :: b2 :: b3 :: rest =>
      stdChar (b1 / 4) :: stdChar (b1 % 4 * 16 + b2 / 16) ::
        stdChar (b2 % 16 * 4 + b3 / 64) :: stdChar (b3 % 64) :: b64encode rest

/-- Modelled from the spec: base64url encoding without padding —
"base64url(SHA-256(codeVerifier)) with padding stripped" — defined
directly over the base64url alphabet with no `=` characters. -/
def b64urlNoPad : List Nat → List Char
  | [] => []
  | [b1] => [urlChar (b1 / 4), urlChar (b1 % 4 * 16)]
  | [b1, b2] => [urlChar (b1 / 4), urlChar (b1 % 4 * 16 + b2 / 16), urlChar (b2 % 16 * 4)]
  | b1 :: b2 :: b3 :: rest =>
      urlChar (b1 / 4) :: urlChar (b1 % 4 * 16 + b2 / 16) ::
        urlChar (b2 % 16 * 4 + b3 / 64) :: urlChar (b3 % 64) :: b64urlNoPad rest

/-- The two global character replacements of customAuthService.ts line 150:
`+` to `-` and `/` to `_` (in that order, fused into one pass; `-` and `_`
are not `+` or `/`, so the fusion is exact). -/
def replacePlusSlash (l : List Char) : List Char :=
  l.map (fun c => if c = '+' then '-' else if c = '/' then '_' else c)

/-- The final `replace` of line 150: the regex matches the maximal trailing
run of `=` and deletes it. -/
def stripTrailingEq (l : List Char) : List Char :=
  (l.reverse.dropWhile (fun c => c = '=')).reverse

/-- The challenge computation applied to the digest bytes
(customAuthService.ts lines 148-150): `btoa`, then the two replacements,
then stripping the trailing padding. -/
def codeChallengeOfHash (hash : List Nat) : List Char :=
  stripTrailingEq (replacePlusSlash (b64encode hash))

/-- Embeds `generatePKCE` (lines 142-153): a 128-character verifier from the
random source and the challenge derived from the verifier's SHA-256 digest.
The digest function is an explicit parameter (crypto.subtle.digest is a
browser primitive). -/
def generatePKCE (sha256 : List Char → List Nat) (randomValues : List Nat) :
    List Char × List Char :=
  let codeVerifier := generateRandomString 128 randomValues
  (codeVerifier, codeChallengeOfHash (sha256 codeVerifier))

theorem replacePlusSlash_stdChar (n : Nat) :
    (if stdChar n = '+' then '-' else if stdChar n = '/' then '_' else stdChar n) = urlChar n := by
  by_cases h : n < 64
  · revert h
    have : ∀ m : Fin 64,
        (if stdChar m.val = '+' then '-' else if stdChar m.val = '/' then '_' else stdChar m.val)
          = urlChar m.val := by decide
    intro h
    exact this ⟨n, h⟩
  · have h1 : b64StdChars.length ≤ n := by
      have : b64StdChars.length = 64 := by decide
      omega
    have h2 : b64UrlChars.length ≤ n := by
      have : b64UrlChars.length = 64 := by decide
      omega
    have e1 : b64StdChars[n]? = none := List.getElem?_eq_none h1
    have e2 : b64UrlChars[n]? = none := List.getElem?_eq_none h2
    simp [stdChar, urlChar, List.getD, e1, e2]

theorem urlChar_ne_eq (n : Nat) : urlChar n ≠ '=' := by
  by_cases h : n < 64
  · revert h
    have : ∀ m : Fin 64, urlChar m.val ≠ '=' := by decide
    intro h
    exact this ⟨n, h⟩
  · have h2 : b64UrlChars.length ≤ n := by
      have : b64UrlChars.length = 64 := by decide
      omega
    have e2 : b64UrlChars[n]? = none := List.getElem?_eq_none h2
    simp [urlChar, List.getD, e2]

theorem dropWhile_eq_self_of_false {p : Char → Bool} (l : List Char)
    (h : ∀ c ∈ l, p c = false) : l.dropWhile p = l := by
  cases l with
  | nil => rfl
  | cons a t =>
      rw [List.dropWhile_cons]
      simp [h a (List.mem_cons_self a t)]

theorem stripTrailingEq_append (A B : List Char) (hA : ∀ c ∈ A, (c = '=') = False) :
    stripTrailingEq (A ++ B) = A ++ stripTrailingEq B := by
  simp only [stripTrailingEq, List.reverse_append]
  rw [List.dropWhile_append]
  by_cases hB : (B.reverse.dropWhile (fun c => c = '=')).isEmpty
  · rw [if_pos hB]
    rw [List.isEmpty_iff] at hB
    rw [hB, List.reverse_nil, List.append_nil]
    rw [dropWhile_eq_self_of_false A.reverse (by
      intro c hc
      have := hA c (List.mem_reverse.mp hc)
      simp [this])]
    exact List.reverse_reverse A
  · rw [if_neg hB, List.reverse_append, List.reverse_reverse]

theorem replacePlusSlash_cons (c : Char) (l : List Char) :
    replacePlusSlash (c :: l) =
      (if c = '+' then '-' else if c = '/' then '_' else c) :: replacePlusSlash l := rfl

/-- Core refinement: the replace-and-strip chain of the source applied to
standard base64 output equals the direct base64url-without-padding
encoding, for every byte list. -/
theorem codeChallengeOfHash_eq_b64urlNoPad (hash : List Nat) :
    codeChallengeOfHash hash = b64urlNoPad hash := by
  induction hash using b64encode.induct with
  | case1 => rfl
  | case2 b1 =>
      simp only [codeChallengeOfHash, b64encode, b64urlNoPad]
      rw [show [stdChar (b1 / 4), stdChar (b1 % 4 * 16), '=', '='] =
        [stdChar (b1 / 4), stdChar (b1 % 4 * 16)] ++ ['=', '='] from rfl]
      rw [show replacePlusSlash ([stdChar (b1 / 4), stdChar (b1 % 4 * 16)] ++ ['=', '=']) =
        replacePlusSlash [stdChar (b1 / 4), stdChar (b1 % 4 * 16)] ++
          replacePlusSlash ['=', '='] from List.map_append _ _ _]
      rw [replacePlusSlash_cons, replacePlusSlash_cons, replacePlusSlash_stdChar,
        replacePlusSlash_stdChar]
      rw [stripTrailingEq_append _ _ (by
        intro c hc
        simp only [List.mem_cons, replacePlusSlash, List.map_nil, List.not_mem_nil,
          or_false] at hc
        rcases hc with h | h <;> simp [h, urlChar_ne_eq])]
      rw [show stripTrailingEq (replacePlusSlash ['=', '=']) = [] from rfl]
      rfl
  | case3 b1 b2 =>
      simp only [codeChallengeOfHash, b64encode, b64urlNoPad]
      rw [show [stdChar (b1 / 4), stdChar (b1 % 4 * 16 + b2 / 16), stdChar (b2 % 16 * 4), '='] =
        [stdChar (b1 / 4), stdChar (b1 % 4 * 16 + b2 / 16), stdChar (b2 % 16 * 4)] ++ ['='] from
        rfl]
      rw [show replacePlusSlash
          ([stdChar (b1 / 4), stdChar (b1 % 4 * 16 + b2 / 16), stdChar (b2 % 16 * 4)] ++ ['=']) =
        replacePlusSlash [stdChar (b1 / 4), stdChar (b1 % 4 * 16 + b2 / 16),
          stdChar (b2 % 16 * 4)] ++ replacePlusSlash ['='] from List.map_append _ _ _]
      rw [replacePlusSlash_cons, replacePlusSlash_cons, replacePlusSlash_cons,
        replacePlusSlash_stdChar, replacePlusSlash_stdChar, replacePlusSlash_stdChar]
      rw [stripTrailingEq_append _ _ (by
        intro c hc
        simp only [List.mem_cons, replacePlusSlash, List.map_nil, List.not_mem_nil,
          or_false] at hc
        rcases hc with h | h | h <;> simp [h, urlChar_ne_eq])]
      rw [show stripTrailingEq (replacePlusSlash ['=']) = [] from rfl]
      rfl
  | case4 b1 b2 b3 rest ih =>
      simp only [codeChallengeOfHash, b64encode, b64urlNoPad] at ih ⊢
      rw [show stdChar (b1 / 4) :: stdChar (b1 % 4 * 16 + b2 / 16) ::
          stdChar (b2 % 16 * 4 + b3 / 64) :: stdChar (b3 % 64) :: b64encode rest =
        [stdChar (b1 / 4), stdChar (b1 % 4 * 16 + b2 / 16), stdChar (b2 % 16 * 4 + b3 / 64),
          stdChar (b3 % 64)] ++ b64encode rest from rfl]
      rw [show replacePlusSlash
          ([stdChar (b1 / 4), stdChar (b1 % 4 * 16 + b2 / 16), stdChar (b2 % 16 * 4 + b3 / 64),
            stdChar (b3 % 64)] ++ b64encode rest) =
        replacePlusSlash [stdChar (b1 / 4), stdChar (b1 % 4 * 16 + b2 / 16),
          stdChar (b2 % 16 * 4 + b3 / 64), stdChar (b3 % 64)] ++
          replacePlusSlash (b64encode rest) from List.map_append _ _ _]
      rw [replacePlusSlash_cons, replacePlusSlash_cons, replacePlusSlash_cons,
        replacePlusSlash_cons, replacePlusSlash_stdChar, replacePlusSlash_stdChar,
        replacePlusSlash_stdChar, replacePlusSlash_stdChar]
      rw [stripTrailingEq_append _ _ (by
        intro c hc
        simp only [List.mem_cons, replacePlusSlash, List.map_nil, List.not_mem_nil,
          or_false] at hc
        rcases hc with h | h | h | h <;> simp [h, urlChar_ne_eq])]
      rw [ih]
      rfl

/-- The two handler classes of logger.ts. -/
inductive HandlerKind where
  | consoleHandler
  | fluentdHandler
deriving DecidableEq, Repr

/-- Heap of handler arrays: JavaScript arrays are reference values, and
`withAttrs` passes the parent's array by reference, so handler lists live
in a store indexed by reference. -/
abbrev HandlerStore : Type := Nat → List HandlerKind

/-- The environment variables read by the Logger constructor. -/
structure LoggerEnv where
  nodeEnv : Option String
  loggingEnabledVar : Option String
deriving Repr

/-- Value of `process.env.NODE_ENV || 'development'`. -/
def envEnvironment (env : LoggerEnv) : String :=
  if jsTruthy env.nodeEnv then env.nodeEnv.getD "" else "development"

/-- Value of `process.env.REACT_APP_LOGGING_ENABLED !== 'false'`. -/
def envEnabled (env : LoggerEnv) : Bool := env.loggingEnabledVar ≠ some "false"

/-- The default handlers the Logger constructor pushes onto the handler
array it is given (logger.ts lines 292-301). -/
def defaultHandlers (env : LoggerEnv) : List HandlerKind :=
  if envEnabled env then
    if envEnvironment env = "development" then [.consoleHandler]
    else [.fluentdHandler, .consoleHandler]
  else []

/-- Attribute maps (`Record<string, any>`), with string-modelled values. -/
abbrev AttrMap : Type := List (String × String)

/-- Object-spread merge `{ ...a, ...b }`: keys of `b` override keys of `a`;
surviving keys of `a` keep their order, followed by the entries of `b`. -/
def mergeAttrs (a b : AttrMap) : AttrMap :=
  a.filter (fun kv => ¬ b.any (fun kv2 => kv2.1 = kv.1)) ++ b

/-- A Logger instance (logger.ts lines 280-302): the reference to its
handler array and its scalar fields. `extraAttrs` models the attribute map
captured by the `withAttrs` override of the `log` method — `[]` for a
plain logger, whose `log` uses the call-site attributes unchanged. -/
structure LoggerObj where
  handlersRef : Nat
  service : String
  environment : String
  enabled : Bool
  extraAttrs : AttrMap
deriving Repr

/-- Embeds `new Logger(handlers)` on an existing array reference `ref`: the
instance stores the reference, reads its scalar fields from the
environment, and pushes the default handlers onto the referenced array —
mutating the shared array in place. -/
def newLogger (env : LoggerEnv) (ref : Nat) (store : HandlerStore) :
    LoggerObj × HandlerStore :=
  (⟨ref, "idmreactclient-frontend", envEnvironment env, envEnabled env, []⟩,
   fun r => if r = ref then store ref ++ defaultHandlers env else store r)

/-- Embeds `Logger.withAttrs` (logger.ts lines 391-404): constructs a new
Logger on the parent's handler array reference, copies the parent's
service, environment and enabled fields, and overrides the new instance's
`log` to merge `attrs` under the call-site attributes. -/
def withAttrs (env : LoggerEnv) (store : HandlerStore) (L : LoggerObj) (attrs : AttrMap) :
    LoggerObj × HandlerStore :=
  let n := newLogger env L.handlersRef store
  (⟨n.1.handlersRef, L.service, L.environment, L.enabled, attrs⟩, n.2)

/-- Emission of one record through a logger (logger.ts lines 304-323),
abstracted to what the handlers observe: nothing when the logger is
disabled, otherwise each handler of the referenced array paired with the
record's attribute map (the override's attributes merged under the
call-site attributes). -/
def emit (store : HandlerStore) (L : LoggerObj) (attrs : AttrMap) :
    List (HandlerKind × AttrMap) :=
  if L.enabled then (store L.handlersRef).map (fun h => (h, mergeAttrs L.extraAttrs attrs))
  else []

/-- A queued log record (interface LogRecord / LogEntry of logger.ts). -/
structure LogRecord where
  time : String
  level : String
  msg : String
  service : String
  environment : String
  attrs : AttrMap
deriving DecidableEq, Repr

/-- Outcome of the fetch to the ingestion endpoint. `resolved status` is a
completed HTTP exchange with any status code — fetch resolves (does not
throw) for every status; it throws only on a network error or on the
3-second AbortSignal timeout. -/
inductive FetchOutcome where
  | resolved (status : Nat)
  | networkError
  | timeout
deriving DecidableEq, Repr

/-- Whether the fetch promise rejects, i.e. control reaches the catch
block of `flushBatch`. -/
def fetchThrows : FetchOutcome → Bool
  | .resolved _ => false
  | .networkError => true
  | .timeout => true

/-- Embeds `flushBatch` (logger.ts lines 56-78 and 247-270, identical
logic): empty queue returns at once; otherwise the queue is copied and
reset before the await, records logged while the request is in flight
(`loggedDuring`) accumulate in the fresh queue, and the catch block — run
only when the fetch throws — writes every record of the sent batch to the
console. Result: the queue afterwards and the console fallback output. -/
def flushBatch (queue : List LogRecord) (outcome : FetchOutcome)
    (loggedDuring : List LogRecord) : List LogRecord × List LogRecord :=
  if queue.isEmpty then (queue ++ loggedDuring, [])
  else
    let logsToSend := queue
    if fetchThrows outcome then (loggedDuring, logsToSend) else (loggedDuring, [])

/-- C1 (counterexample): a callback URL whose state differs from the stored
state but which also carries an `error` parameter fails with the
authorization error, not with the state-mismatch error, so the claim's
"fails with a state-mismatch error" does not hold for every such URL
(the token endpoint is still not called). -/
theorem C1_counterexample :
    (⟨some "ABC", some "X", some "access_denied"⟩ : CallbackParams).state ≠
      (⟨none, none, some "ver", some "S"⟩ : AuthState).ssState ∧
    (signinRedirectCallback ⟨none, none, some "ver", some "S"⟩
        ⟨some "ABC", some "X", some "access_denied"⟩ (.httpError none)).result ≠
      .error .invalidState ∧
    (signinRedirectCallback ⟨none, none, some "ver", some "S"⟩
        ⟨some "ABC", some "X", some "access_denied"⟩ (.httpError none)).result =
      .error (.authorizationError "access_denied") ∧
    (signinRedirectCallback ⟨none, none, some "ver", some "S"⟩
        ⟨some "ABC", some "X", some "access_denied"⟩ (.httpError none)).tokenCalls = 0 := by
  decide

/-- C1 (amended): for every callback whose state parameter differs from the
stored state, `signinRedirectCallback` issues zero token-exchange requests
and leaves the state unchanged; it fails with the state-mismatch error
whenever the earlier checks pass (no truthy `error` parameter and a truthy
`code`), and otherwise fails with that earlier error. -/
theorem C1_state_mismatch_short_circuits (s : AuthState) (p : CallbackParams)
    (outcome : TokenOutcome) (h : p.state ≠ s.ssState) :
    (signinRedirectCallback s p outcome).tokenCalls = 0 ∧
    (signinRedirectCallback s p outcome).state = s ∧
    (exceptOk (signinRedirectCallback s p outcome).result = false) ∧
    (jsTruthy p.error = false → jsTruthy p.code = true →
      (signinRedirectCallback s p outcome).result = .error .invalidState) ∧
    (jsTruthy p.error = true →
      (signinRedirectCallback s p outcome).result =
        .error (.authorizationError (p.error.getD ""))) ∧
    (jsTruthy p.error = false → jsTruthy p.code = false →
      (signinRedirectCallback s p outcome).result = .error .missingCode) := by
  cases herr : jsTruthy p.error with
  | true => simp [signinRedirectCallback, herr, exceptOk]
  | false =>
      cases hcode : jsTruthy p.code with
      | false => simp [signinRedirectCallback, herr, hcode, exceptOk]
      | true => simp [signinRedirectCallback, herr, hcode, h, exceptOk]

theorem C1_state_mismatch_short_circuits_witness :
    (signinRedirectCallback ⟨none, none, some "ver", some "S"⟩
        ⟨some "ABC", some "X", none⟩ (.success ⟨"i", "e", some "t", "B", 1, "o"⟩)).tokenCalls = 0 ∧
    (signinRedirectCallback ⟨none, none, some "ver", some "S"⟩
        ⟨some "ABC", some "X", none⟩ (.success ⟨"i", "e", some "t", "B", 1, "o"⟩)).state =
      ⟨none, none, some "ver", some "S"⟩ ∧
    (exceptOk (signinRedirectCallback ⟨none, none, some "ver", some "S"⟩
        ⟨some "ABC", some "X", none⟩ (.success ⟨"i", "e", some "t", "B", 1, "o"⟩)).result = false) ∧
    (jsTruthy (none : Option String) = false → jsTruthy (some "ABC") = true →
      (signinRedirectCallback ⟨none, none, some "ver", some "S"⟩
        ⟨some "ABC", some "X", none⟩ (.success ⟨"i", "e", some "t", "B", 1, "o"⟩)).result =
        .error .invalidState) ∧
    (jsTruthy (none : Option String) = true →
      (signinRedirectCallback ⟨none, none, some "ver", some "S"⟩
        ⟨some "ABC", some "X", none⟩ (.success ⟨"i", "e", some "t", "B", 1, "o"⟩)).result =
        .error (.authorizationError ((none : Option String).getD ""))) ∧
    (jsTruthy (none : Option String) = false → jsTruthy (some "ABC") = false →
      (signinRedirectCallback ⟨none, none, some "ver", some "S"⟩
        ⟨some "ABC", some "X", none⟩ (.success ⟨"i", "e", some "t", "B", 1, "o"⟩)).result =
        .error .missingCode) :=
  C1_state_mismatch_short_circuits ⟨none, none, some "ver", some "S"⟩
    ⟨some "ABC", some "X", none⟩ (.success ⟨"i", "e", some "t", "B", 1, "o"⟩) (by decide)

/-- C2: in every state reachable by the client's operations from the empty
state, the in-memory user and the durable auth_user entry each exist
exactly when a code exchange that passed the state comparison and the
stored-verifier check has completed successfully since the last
signoutRedirect / removeUser. -/
theorem C2_session_iff_validated_exchange (events : List AuthEvent) :
    (runAuth events).st.user.isSome = (runAuth events).validatedExchange ∧
    (runAuth events).st.lsAuthUser.isSome = (runAuth events).validatedExchange :=
  runAuth_SessionInv events

/-- C3: over every interleaving of callback-page invocations (guarded by
`handledRef`, which the component sets before awaiting the network
response) and exchange completions, starting from an arbitrary stored
authentication state, the authorization code is exchanged at most once. -/
theorem C3_code_exchanged_at_most_once (s : AuthState) (events : List CbEvent) :
    (events.foldl cbStep (cbInit s)).exchangeCount ≤ 1 :=
  (foldl_preserves_CbInv events (cbInit s) ⟨Nat.zero_le 1, fun _ => rfl⟩).1

/-- C4 (counterexample): with the default environment (NODE_ENV unset,
logging enabled), calling `withAttrs` on a parent logger whose handler
array holds one console handler appends another console handler to that
shared array, so a record emitted through the parent afterwards is handled
twice — not "exactly as before" as the claim requires. -/
theorem C4_counterexample :
    emit (withAttrs (⟨none, none⟩ : LoggerEnv)
        ((fun _ => [HandlerKind.consoleHandler]) : HandlerStore)
        ⟨0, "idmreactclient-frontend", "development", true, []⟩ [("component", "Dashboard")]).2
      ⟨0, "idmreactclient-frontend", "development", true, []⟩ [] ≠
    emit ((fun _ => [HandlerKind.consoleHandler]) : HandlerStore)
      ⟨0, "idmreactclient-frontend", "development", true, []⟩ [] := by
  decide

/-- C4 (amended): `withAttrs(attrs)` returns a derived logger that merges
`attrs` under the call-site attributes of every record it emits and shares
the parent's handler array; constructing it appends the environment's
default handlers to that shared array, so the parent's records are
afterwards handled by its previous handlers plus the appended ones — the
parent's own attribute behaviour is unchanged but its handler list is not. -/
theorem C4_withAttrs_behavior (env : LoggerEnv) (store : HandlerStore) (L : LoggerObj)
    (attrs callAttrs : AttrMap) :
    ((withAttrs env store L attrs).1.handlersRef = L.handlersRef ∧
     (withAttrs env store L attrs).1.enabled = L.enabled ∧
     (withAttrs env store L attrs).1.extraAttrs = attrs ∧
     emit (withAttrs env store L attrs).2 (withAttrs env store L attrs).1 callAttrs =
       if L.enabled then
         ((withAttrs env store L attrs).2 L.handlersRef).map
           (fun h => (h, mergeAttrs attrs callAttrs))
       else []) ∧
    (∀ ref, (withAttrs env store L attrs).2 ref =
       if ref = L.handlersRef then store L.handlersRef ++ defaultHandlers env else store ref) ∧
    emit (withAttrs env store L attrs).2 L callAttrs =
      if L.enabled then
        (store L.handlersRef ++ defaultHandlers env).map
          (fun h => (h, mergeAttrs L.extraAttrs callAttrs))
      else [] := by
  refine ⟨⟨rfl, rfl, rfl, ?_⟩, fun ref => ?_, ?_⟩
  · simp [withAttrs, newLogger, emit]
  · simp [withAttrs, newLogger]
  · simp [withAttrs, newLogger, emit]

/-- C5 (counterexample): a stored user whose access token is the empty
string makes `isAuthenticated` return true, although the claim requires
false for an empty access token (the code compares against null only). -/
theorem C5_counterexample :
    isAuthenticated ⟨some ⟨"id1", "e@x", some "", "Bearer", 3600, "openid"⟩,
      some ⟨"id1", "e@x", some "", "Bearer", 3600, "openid"⟩, none, none⟩ = true ∧
    (⟨"id1", "e@x", some "", "Bearer", 3600, "openid"⟩ : AuthUser).access_token = some "" := by
  decide

/-- C5 (amended): `isAuthenticated()` returns true iff a Session exists and
its access token is not null — the empty string counts as authenticated —
and the expiry field is never consulted: changing `expires_in` never
changes the result. -/
theorem C5_isAuthenticated_characterization (s : AuthState) :
    (isAuthenticated s = true ↔ ∃ u, s.user = some u ∧ u.access_token.isSome = true) ∧
    (∀ n : Int, isAuthenticated
        ⟨s.user.map (fun u => ⟨u.id, u.email, u.access_token, u.token_type, n, u.scope⟩),
          s.lsAuthUser, s.ssVerifier, s.ssState⟩ = isAuthenticated s) := by
  constructor
  · cases hu : s.user with
    | none => simp [isAuthenticated, hu]
    | some u =>
        simp only [isAuthenticated, hu]
        constructor
        · intro h
          exact ⟨u, rfl, h⟩
        · rintro ⟨v, hv, ht⟩
          cases hv
          exact ht
  · intro n
    cases hu : s.user with
    | none => simp [isAuthenticated, hu]
    | some u => simp [isAuthenticated, hu]

/-- C6: for every verifier produced from the random source, the code
challenge computed by `generatePKCE` equals the base64url encoding
without padding of the verifier's SHA-256 digest (the digest function is
the abstract crypto primitive). -/
theorem C6_codeChallenge_is_base64url (sha256 : List Char → List Nat)
    (randomValues : List Nat) :
    (generatePKCE sha256 randomValues).2 =
      b64urlNoPad (sha256 (generatePKCE sha256 randomValues).1) :=
  codeChallengeOfHash_eq_b64urlNoPad _

/-- C7: for every sequence of random bytes, the generated code verifier has
length 128 (hence within [43,128]) and all its characters lie in the
unreserved set [A-Za-z0-9-._~]. -/
theorem C7_verifier_length_and_charset (randomValues : List Nat) :
    (generateRandomString 128 randomValues).length = 128 ∧
    43 ≤ (generateRandomString 128 randomValues).length ∧
    (generateRandomString 128 randomValues).length ≤ 128 ∧
    ∀ c ∈ generateRandomString 128 randomValues, isUnreservedChar c = true := by
  have hlen : (generateRandomString 128 randomValues).length = 128 := by
    simp [generateRandomString]
  refine ⟨hlen, by omega, by omega, ?_⟩
  intro c hc
  exact pkceCharset_unreserved c (generateRandomString_mem_charset 128 randomValues c hc)

/-- C8 (counterexample): when the ingestion endpoint answers with a
non-success HTTP status (500), fetch resolves, the catch block does not
run, and the batch is dropped with no console fallback — contradicting the
claim that every record of a batch failing with a non-success status is
fallback-logged. -/
theorem C8_counterexample :
    (flushBatch [⟨"t", "INFO", "hello", "svc", "production", []⟩] (.resolved 500) []).2 = [] ∧
    (flushBatch [⟨"t", "INFO", "hello", "svc", "production", []⟩] (.resolved 500) []).1 = [] ∧
    ¬ (200 ≤ 500 ∧ 500 ≤ 299) := by
  decide

/-- C8 (amended): for every non-empty queue, when the flush's fetch throws
(network error or timeout) every record of the failed batch is written to
the console fallback preserving level and message, the batch is not
requeued, and the queue afterwards contains exactly the records logged
after the flush began; a non-success HTTP status is not detected — the
response status is ignored and the batch is dropped with no fallback
output (and likewise not requeued). -/
theorem C8_flush_failure_fallback (queue loggedDuring : List LogRecord)
    (outcome : FetchOutcome) (h : queue ≠ []) :
    (flushBatch queue outcome loggedDuring).1 = loggedDuring ∧
    (fetchThrows outcome = true →
      (flushBatch queue outcome loggedDuring).2 = queue ∧
      (flushBatch queue outcome loggedDuring).2.map (fun x => (x.level, x.msg)) =
        queue.map (fun x => (x.level, x.msg))) ∧
    (fetchThrows outcome = false → (flushBatch queue outcome loggedDuring).2 = []) := by
  have hne : queue.isEmpty = false := by
    cases queue with
    | nil => exact absurd rfl h
    | cons a t => rfl
  simp only [flushBatch, hne, Bool.false_eq_true, if_false]
  cases houtcome : fetchThrows outcome <;> simp

theorem C8_flush_failure_fallback_witness :
    (flushBatch [⟨"t", "WARN", "w1", "svc", "production", []⟩] .networkError []).1 = [] ∧
    (fetchThrows .networkError = true →
      (flushBatch [⟨"t", "WARN", "w1", "svc", "production", []⟩] .networkError []).2 =
        [⟨"t", "WARN", "w1", "svc", "production", []⟩] ∧
      (flushBatch [⟨"t", "WARN", "w1", "svc", "production", []⟩]
          .networkError []).2.map (fun x => (x.level, x.msg)) =
        ([⟨"t", "WARN", "w1", "svc", "production", []⟩] : List LogRecord).map
          (fun x => (x.level, x.msg))) ∧
    (fetchThrows .networkError = false →
      (flushBatch [⟨"t", "WARN", "w1", "svc", "production", []⟩] .networkError []).2 = []) :=
  C8_flush_failure_fallback [⟨"t", "WARN", "w1", "svc", "production", []⟩] [] .networkError
    (by decide)

/-- C9: for a callback carrying a code and the stored state and verifier,
when the token endpoint responds with a success body (which, per the data
model, carries an access token), `signinRedirectCallback` returns the
session, stores it in memory and in durable storage, removes the stored
verifier and state, and a subsequent `isAuthenticated()` returns true. -/
theorem C9_success_persists_session (s : AuthState) (p : CallbackParams) (u : AuthUser)
    (h1 : jsTruthy p.error = false) (h2 : jsTruthy p.code = true)
    (h3 : p.state = s.ssState) (h4 : jsTruthy s.ssVerifier = true)
    (h5 : u.access_token.isSome = true) :
    (signinRedirectCallback s p (.success u)).result = .ok u ∧
    (signinRedirectCallback s p (.success u)).state = ⟨some u, some u, none, none⟩ ∧
    isAuthenticated (signinRedirectCallback s p (.success u)).state = true := by
  simp only [signinRedirectCallback, exchangeCodeForToken, h1, h2, h3, h4, Bool.not_true,
    Bool.false_eq_true, if_false, ne_eq, not_true_eq_false, Bool.not_false, if_true]
  simp [isAuthenticated, h5]

theorem C9_success_persists_session_witness :
    (signinRedirectCallback ⟨none, none, some "ver", some "S"⟩ ⟨some "ABC", some "S", none⟩
        (.success ⟨"sub1", "e@x", some "tok1", "Bearer", 3600, "openid"⟩)).result =
      .ok ⟨"sub1", "e@x", some "tok1", "Bearer", 3600, "openid"⟩ ∧
    (signinRedirectCallback ⟨none, none, some "ver", some "S"⟩ ⟨some "ABC", some "S", none⟩
        (.success ⟨"sub1", "e@x", some "tok1", "Bearer", 3600, "openid"⟩)).state =
      ⟨some ⟨"sub1", "e@x", some "tok1", "Bearer", 3600, "openid"⟩,
        some ⟨"sub1", "e@x", some "tok1", "Bearer", 3600, "openid"⟩, none, none⟩ ∧
    isAuthenticated (signinRedirectCallback ⟨none, none, some "ver", some "S"⟩
        ⟨some "ABC", some "S", none⟩
        (.success ⟨"sub1", "e@x", some "tok1", "Bearer", 3600, "openid"⟩)).state = true :=
  C9_success_persists_session ⟨none, none, some "ver", some "S"⟩ ⟨some "ABC", some "S", none⟩
    ⟨"sub1", "e@x", some "tok1", "Bearer", 3600, "openid"⟩
    (by decide) (by decide) (by decide) (by decide) (by decide)

/-- C10: when the token exchange returns a non-success HTTP response,
`signinRedirectCallback` rejects with the token-exchange error and the
authentication state is unchanged — in-memory user, durable auth_user
entry and the stored verifier and state all keep their prior values. -/
theorem C10_http_error_leaves_state_unchanged (s : AuthState) (p : CallbackParams)
    (ef : Option String) (h1 : jsTruthy p.error = false) (h2 : jsTruthy p.code = true)
    (h3 : p.state = s.ssState) (h4 : jsTruthy s.ssVerifier = true) :
    (signinRedirectCallback s p (.httpError ef)).result =
      .error (.tokenExchangeFailed (if jsTruthy ef then ef.getD "" else "Token exchange failed")) ∧
    (signinRedirectCallback s p (.httpError ef)).state = s ∧
    (signinRedirectCallback s p (.httpError ef)).tokenCalls = 1 := by
  simp [signinRedirectCallback, exchangeCodeForToken, h1, h2, h3, h4]

theorem C10_http_error_leaves_state_unchanged_witness :
    (signinRedirectCallback ⟨none, none, some "ver", some "S"⟩ ⟨some "ABC", some "S", none⟩
        (.httpError (some "invalid_grant"))).result =
      .error (.tokenExchangeFailed (if jsTruthy (some "invalid_grant") then
        (some "invalid_grant").getD "" else "Token exchange failed")) ∧
    (signinRedirectCallback ⟨none, none, some "ver", some "S"⟩ ⟨some "ABC", some "S", none⟩
        (.httpError (some "invalid_grant"))).state = ⟨none, none, some "ver", some "S"⟩ ∧
    (signinRedirectCallback ⟨none, none, some "ver", some "S"⟩ ⟨some "ABC", some "S", none⟩
        (.httpError (some "invalid_grant"))).tokenCalls = 1 :=
  C10_http_error_leaves_state_unchanged ⟨none, none, some "ver", some "S"⟩
    ⟨some "ABC", some "S", none⟩ (some "invalid_grant")
    (by decide) (by decide) (by decide) (by decide)

end IDMClient
